import Mathlib

/-!
Shallow embedding of the notification/deduplication subsystem and the
pagination helpers of the admin console.

Sources embedded:
* `src/src/utils/notify.ts` — `simplifyMessage`, `shouldSkip`, `pushNotice`,
  `notifyError` / `notifySuccess` / `notifyInfo`;
* the Pinia notice store (`simplifyNoticeMessage`, `remove`,
  `hasSimilarVisibleNotice`, `show`, `clear`, `clearAll`);
* the pagination helpers `changePage` / `jumpToPage` of
  `src/src/views/admin/Coupons.vue` and `.../UserLoginLogs.vue`.

Strings are modelled as `List Char`.  JavaScript `String.prototype.trim`
and the regex class `\s` use the ECMAScript WhiteSpace/LineTerminator set,
modelled by `isJsWs`.  `toLowerCase` is modelled per character by
`Char.toLower` (ASCII case folding; the code points the normalizers act on —
ASCII and CJK — are folded identically by JavaScript).  Timestamps are `Int`
milliseconds and `Date.now()` becomes an explicit `now` argument; the
module-level mutable variables of `notify.ts` become an explicit
`NotifyState`, and the Pinia store state a `StoreState`.
-/

namespace Admin

/-- Strings as lists of characters. -/
abbrev Str := List Char

/-- ECMAScript WhiteSpace ∪ LineTerminator: the set trimmed by
`String.prototype.trim` and matched by `\s` in a regex. -/
def isJsWs (c : Char) : Bool :=
  ([9, 10, 11, 12, 13, 32, 0xA0, 0x1680, 0x2028, 0x2029, 0x202F,
    0x205F, 0x3000, 0xFEFF] : List Nat).contains c.toNat
  || (decide (0x2000 ≤ c.toNat) && decide (c.toNat ≤ 0x200A))

/-- JavaScript `String.prototype.trim`: drop leading and trailing whitespace. -/
def jsTrim (s : Str) : Str :=
  ((s.dropWhile isJsWs).reverse.dropWhile isJsWs).reverse

/-- JavaScript `String.prototype.toLowerCase`, per character (ASCII folding). -/
def jsToLower (c : Char) : Char := c.toLower

/-- The characters deleted by the final normalizer call (a global replace by
the empty string): the 32 ASCII punctuation marks of the source character
class in source order (listed below by code point, from backtick, tilde and
bang to slash and question mark), followed by the CJK punctuation marks
(fullwidth comma, ideographic full stop, fullwidth bang, question mark,
semicolon, colon, ideographic comma, curly double and single quotes,
fullwidth parentheses, black lenticular and double angle brackets, middle
dot, ellipsis and em dash).  The class also contains the whitespace escape,
handled by `isJsWs` inside `isRemovable`. -/
def punctChars : List Char :=
  ([96, 126, 33, 64, 35, 36, 37, 94, 38, 42, 40, 41, 95, 43, 45, 61,
    91, 93, 123, 125, 59, 39, 58, 34, 92, 124, 44, 46, 60, 62, 47, 63,
    0xFF0C, 0x3002, 0xFF01, 0xFF1F, 0xFF1B, 0xFF1A, 0x3001,
    0x201C, 0x201D, 0x2018, 0x2019, 0xFF08, 0xFF09, 0x3010, 0x3011,
    0x300A, 0x300B, 0xB7, 0x2026, 0x2014] : List Nat).map Char.ofNat

/-- Membership in the deletion character class of the source regex: the
ECMAScript whitespace set plus `punctChars`. -/
def isRemovable (c : Char) : Bool := isJsWs c || punctChars.contains c

/-- The alternatives of the failure-prefix regex, in source order (the ASCII
ones already lower-case, as written in the source regex). -/
def prefixLits : List Str :=
  (["操作失败", "請求失敗", "请求失败", "提交失败", "保存失败",
    "删除失败", "更新失败", "创建失败", "上傳失敗", "上传失败",
    "operation failed", "request failed"] : List String).map String.data

/-- Case-insensitive literal prefix match (regex `/i` canonicalization:
ASCII letters fold, everything else must match exactly); returns the rest
of the string on success. -/
def matchLit : Str → Str → Option Str
  | [], s => some s
  | _ :: _, [] => none
  | a :: la, b :: lb => if jsToLower b = a then matchLit la lb else none

/-- The `\s*[:：\-]\s*` tail of the failure-prefix regex: greedy whitespace,
one separator (`:`, `：` or `-`), greedy whitespace. -/
def matchSep (s : Str) : Option Str :=
  match s.dropWhile isJsWs with
  | [] => none
  | c :: rest =>
    if c = ':' ∨ c = Char.ofNat 0xFF1A ∨ c = '-' then
      some (rest.dropWhile isJsWs)
    else none

/-- Ordered regex alternation: try each literal at the start; on a match the
separator tail must also match, otherwise the next alternative is tried.
No replacement when nothing matches. -/
def tryStrip : List Str → Str → Str
  | [], s => s
  | l :: ls, s =>
    match matchLit l s with
    | some rest =>
      match matchSep rest with
      | some r => r
      | none => tryStrip ls s
    | none => tryStrip ls s

/-- The call `value.replace(/^(操作失败|…|operation failed|request failed)\s*[:：\-]\s*/i, '')`. -/
def stripFailureHead (s : Str) : Str := tryStrip prefixLits s

/-- Function `simplifyMessage` from `src/src/utils/notify.ts`: trim; return
the empty string when empty; strip one leading failure prefix; lower-case;
delete the removable characters. -/
def simplifyMessage (input : Str) : Str :=
  let value := jsTrim input
  if value = [] then []
  else ((stripFailureHead value).map jsToLower).filter (fun c => !isRemovable c)

/-- Function `simplifyNoticeMessage` from the notice store: identical to
`simplifyMessage` except for the wrapper that coerces the input with the
String constructor after an or-with-empty-string guard (on a string argument
that guard maps the empty string to the empty string and is the identity
otherwise, and the String constructor is the identity). -/
def simplifyNoticeMessage (input : Str) : Str :=
  let value := jsTrim (if input = [] then [] else input)
  if value = [] then []
  else ((stripFailureHead value).map jsToLower).filter (fun c => !isRemovable c)

/-- JavaScript `hay.includes(needle)`: contiguous substring test (true on an empty
needle, as in JavaScript). -/
def strIncludes : Str → Str → Bool
  | hay, needle =>
    needle.isPrefixOf hay ||
      match hay with
      | [] => false
      | _ :: t => strIncludes t needle

/-- Type `NoticeType` from the notice store: the union of the three string
literal tags error, success and info. -/
inductive NoticeType
  | error
  | success
  | info
deriving DecidableEq, Repr

/-- The module-level mutable state of `notify.ts`: `lastMessage`,
`lastNormalized`, `lastType` (with the empty-string sentinel modelled as
`none`) and `lastAt`. -/
structure NotifyState where
  lastMessage : Str
  lastNormalized : Str
  lastType : Option NoticeType
  lastAt : Int
deriving DecidableEq, Repr

/-- Initial values of the module-level variables of `notify.ts`. -/
def initNotifyState : NotifyState := ⟨[], [], none, 0⟩

/-- Constant `dedupeWindowMs = 1500` from `notify.ts`. -/
def dedupeWindowMs : Int := 1500

/-- Function `shouldSkip` from `notify.ts`: returns the `duplicated` result
together with the updated module state (`Date.now()` is the `now` argument).
The early return on a whitespace-only `content` leaves the state untouched. -/
def shouldSkip (st : NotifyState) (ty : NoticeType) (content : Str) (now : Int) :
    Bool × NotifyState :=
  let normalized := jsTrim content
  if normalized = [] then (false, st)
  else
    let normalizedCore := simplifyMessage normalized
    let withinWindow : Bool := decide (now - st.lastAt ≤ dedupeWindowMs)
    let sameType : Bool := decide (st.lastType = some ty)
    let duplicatedExact := sameType && decide (st.lastMessage = normalized) && withinWindow
    let duplicatedNormalized := sameType && decide (normalizedCore ≠ [])
      && decide (st.lastNormalized = normalizedCore) && withinWindow
    let duplicatedSimilar := sameType && decide (normalizedCore ≠ [])
      && decide (st.lastNormalized ≠ []) && withinWindow
      && (strIncludes normalizedCore st.lastNormalized
          || strIncludes st.lastNormalized normalizedCore)
    let duplicated := duplicatedExact || duplicatedNormalized || duplicatedSimilar
    (duplicated, ⟨normalized, normalizedCore, some ty, now⟩)

/-- Interface `NoticeItem` from the notice store. -/
structure NoticeItem where
  id : Nat
  message : Str
  type : NoticeType
deriving DecidableEq, Repr

/-- The state of the notice store: the `items` ref, the `timerMap` (modelled as the
list of item ids that currently have a pending auto-dismiss timer, in
insertion order — the stored numeric timeout handles are only ever passed to
`clearTimeout`, so the ids suffice) and the `sequence` counter. -/
structure StoreState where
  items : List NoticeItem
  timers : List Nat
  sequence : Nat
deriving DecidableEq, Repr

/-- The store state created by the setup function of `useNoticeStore`. -/
def emptyStore : StoreState := ⟨[], [], 0⟩

/-- Store action `remove(id)`: cancel and forget the timer of the item, drop the
item from `items`. -/
def StoreState.remove (s : StoreState) (id : Nat) : StoreState :=
  { items := s.items.filter (fun it => it.id ≠ id)
    timers := s.timers.filter (fun i => i ≠ id)
    sequence := s.sequence }

/-- Store helper `hasSimilarVisibleNotice(kind, message)`. -/
def hasSimilarVisibleNotice (s : StoreState) (kind : NoticeType) (message : Str) : Bool :=
  let current := simplifyNoticeMessage message
  if current = [] then false
  else s.items.any fun item =>
    if item.type ≠ kind then false
    else
      let existing := simplifyNoticeMessage item.message
      if existing = [] then false
      else decide (existing = current) || strIncludes existing current
        || strIncludes current existing

/-- Store action `show` (kind defaulting to error, duration to 6000): trim;
bail out
on an empty or similar message; append the item under a fresh id; schedule the
auto-dismiss timer when `duration > 0`; drop the oldest items when more than 5
are visible.  Returns the id (`none` models returning `undefined`). -/
def StoreState.show (s : StoreState) (msg : Str) (kind : NoticeType) (duration : Int) :
    Option Nat × StoreState :=
  let message := jsTrim msg
  if message = [] then (none, s)
  else if hasSimilarVisibleNotice s kind message then (none, s)
  else
    let id := s.sequence + 1
    let s1 : StoreState :=
      { items := s.items ++ [⟨id, message, kind⟩], timers := s.timers, sequence := id }
    let s2 := if duration > 0 then { s1 with timers := s1.timers ++ [id] } else s1
    let s3 :=
      if s2.items.length > 5 then
        (s2.items.take (s2.items.length - 5)).foldl (fun acc it => acc.remove it.id) s2
      else s2
    (some id, s3)

/-- Store action `clear()`: remove the first visible item, if any. -/
def StoreState.clear (s : StoreState) : StoreState :=
  match s.items with
  | [] => s
  | first :: _ => s.remove first.id

/-- Store action `clearAll()`: cancel every timer and empty the list. -/
def StoreState.clearAll (s : StoreState) : StoreState :=
  { items := [], timers := [], sequence := s.sequence }

/-- Function `pushNotice` from `notify.ts`, acting on the pair of the notify
module state and the store state.  The i18n fallback text `t(fallbackKey)` is
the `fallback` argument; the truthiness test on the message and its trim
selects the caller message only when it is a non-empty string with non-empty
trim. -/
def pushNotice (message : Option Str) (ty : NoticeType) (fallback : Str)
    (now : Int) (st : NotifyState) (store : StoreState) : NotifyState × StoreState :=
  let content :=
    match message with
    | some m => if m ≠ [] ∧ jsTrim m ≠ [] then m else fallback
    | none => fallback
  let r := shouldSkip st ty content now
  if r.fst then (r.snd, store)
  else (r.snd, (store.show content ty 6000).snd)

/-- Export `notifyError` from `notify.ts` (fallback key `common.api.requestFailed`). -/
def notifyError (message : Option Str) (fallback : Str) (now : Int)
    (st : NotifyState) (store : StoreState) : NotifyState × StoreState :=
  pushNotice message .error fallback now st store

/-- Export `notifySuccess` from `notify.ts` (fallback key
`admin.common.operationSuccess`). -/
def notifySuccess (message : Option Str) (fallback : Str) (now : Int)
    (st : NotifyState) (store : StoreState) : NotifyState × StoreState :=
  pushNotice message .success fallback now st store

/-- Export `notifyInfo` from `notify.ts` (fallback key `admin.common.notice`). -/
def notifyInfo (message : Option Str) (fallback : Str) (now : Int)
    (st : NotifyState) (store : StoreState) : NotifyState × StoreState :=
  pushNotice message .info fallback now st store

/-- Decimal digit test for the `Number()` model. -/
def isDigit (c : Char) : Bool := decide ('0' ≤ c) && decide (c ≤ '9')

/-- Value of a run of decimal digits. -/
def digitsToNat (ds : Str) : Nat := ds.foldl (fun a c => a * 10 + (c.toNat - 48)) 0

/-- JavaScript `Number(string)` modelled on finite decimal literals: trim the
ECMAScript whitespace; the empty remainder is `0`; otherwise an optional sign
followed by `digits`, `digits.digits` or `.digits`; every other input is
treated as `NaN` (`none`).  (Exponents, hex/octal/binary literals and
`Infinity` are outside the model.) -/
def jsNumber (s : Str) : Option ℚ :=
  let t := jsTrim s
  if t = [] then some 0
  else
    let sign : Int × Str :=
      match t with
      | c :: r => if c = '-' then (-1, r) else if c = '+' then (1, r) else (1, t)
      | [] => (1, t)
    let ip := sign.snd.takeWhile isDigit
    let r1 := sign.snd.dropWhile isDigit
    match r1 with
    | [] => if ip = [] then none else some (mkRat (sign.fst * digitsToNat ip) 1)
    | c :: r2 =>
      if c = '.' then
        let fp := r2.takeWhile isDigit
        let r3 := r2.dropWhile isDigit
        if r3 = [] ∧ (ip ≠ [] ∨ fp ≠ []) then
          some (mkRat (sign.fst * (digitsToNat ip * 10 ^ fp.length + digitsToNat fp))
            (10 ^ fp.length))
        else none
      else none

/-- The pagination state each admin view keeps: `pagination.value.page` and
`pagination.value.total_page`. -/
structure PageState where
  page : Int
  total_page : Int
deriving DecidableEq, Repr

namespace Coupons

/-- Function `changePage` from `Coupons.vue`: reject a page outside
`[1, total_page]`, otherwise fetch that page (`some page` models the
`fetchCoupons(page)` call). -/
def changePage (st : PageState) (page : Int) : Option Int :=
  if page < 1 ∨ page > st.total_page then none else some page

/-- Function `jumpToPage` from `Coupons.vue`: no-op on an empty input
(`!jumpPage.value` — the ref is a string) or a `NaN` conversion; clamp
`Math.floor(raw)` into `[1, total_page]`; no-op when the target is the
current page; otherwise `changePage(target)`. -/
def jumpToPage (st : PageState) (input : Str) : Option Int :=
  if input = [] then none
  else
    match jsNumber input with
    | none => none
    | some raw =>
      let target : Int := min (max (Rat.floor raw) 1) st.total_page
      if target = st.page then none else changePage st target

end Coupons

namespace UserLoginLogs

/-- Function `changePage` from `UserLoginLogs.vue` (`some page` models the
`fetchLogs(page)` call). -/
def changePage (st : PageState) (page : Int) : Option Int :=
  if page < 1 ∨ page > st.total_page then none else some page

/-- Function `jumpToPage` from `UserLoginLogs.vue`. -/
def jumpToPage (st : PageState) (input : Str) : Option Int :=
  if input = [] then none
  else
    match jsNumber input with
    | none => none
    | some raw =>
      let target : Int := min (max (Rat.floor raw) 1) st.total_page
      if target = st.page then none else changePage st target

end UserLoginLogs

/-- A sequence of `shouldSkip` calls with a fixed type and message, one call
per timestamp in `ts`, threading the module state; returns the list of
`duplicated` results and the final state. -/
def runCalls (ty : NoticeType) (m : Str) (st : NotifyState) (ts : List Int) :
    List Bool × NotifyState :=
  match ts with
  | [] => ([], st)
  | t :: rest =>
    let r := shouldSkip st ty m t
    let rr := runCalls ty m r.snd rest
    (r.fst :: rr.fst, rr.snd)

/-- Modelled from the description in the spec of the normalizer, for comparison
with `simplifyMessage`: the prefix removal phrased as a first-match search
over the failure prefixes. -/
def specRemoveHead (s : Str) : Str :=
  match prefixLits.findSome? (fun l => (matchLit l s).bind matchSep) with
  | some r => r
  | none => s

/-- Modelled from the description in the spec of `simplifyMessage`: trim, then (if
non-empty) remove one leading failure prefix followed by a colon/dash
separator case-insensitively, then lower-case, then delete every whitespace
and listed punctuation character (here in one fused right fold). -/
def simplifySpec (s : Str) : Str :=
  let t := jsTrim s
  if t = [] then []
  else (specRemoveHead t).foldr
    (fun c acc => if isRemovable (jsToLower c) then acc else jsToLower c :: acc) []

/-- Well-formedness of a store state, maintained by construction: item ids are
pairwise distinct and never exceed the `sequence` counter. -/
def wfStore (s : StoreState) : Prop :=
  (s.items.map (fun it => it.id)).Nodup ∧ ∀ it ∈ s.items, it.id ≤ s.sequence

/-- Every pending auto-dismiss timer belongs to a currently visible notice. -/
def timersWF (s : StoreState) : Prop :=
  ∀ id ∈ s.timers, ∃ it ∈ s.items, it.id = id

/-! Helper lemmas about the string model. -/

theorem dropWhile_idem (p : Char → Bool) (l : Str) :
    List.dropWhile p (List.dropWhile p l) = List.dropWhile p l := by
  induction l with
  | nil => rfl
  | cons a t ih =>
    by_cases h : p a
    · simp [List.dropWhile_cons, h, ih]
    · simp [List.dropWhile_cons, h]

theorem dropWhile_of_front (p : Char → Bool) (m t : Str)
    (hpre : t <+: List.dropWhile p m) : List.dropWhile p t = t := by
  cases t with
  | nil => rfl
  | cons c t' =>
    have hh : (List.dropWhile p m).head? = some c := by
      obtain ⟨r, hr⟩ := hpre
      rw [← hr]
      rfl
    have h2 := List.head?_dropWhile_not p m
    rw [hh] at h2
    simp only [List.dropWhile_cons, h2]
    simp

theorem jsTrim_front (s : Str) : jsTrim s <+: List.dropWhile isJsWs s := by
  have h : List.dropWhile isJsWs (List.dropWhile isJsWs s).reverse
      <:+ (List.dropWhile isJsWs s).reverse := List.dropWhile_suffix _
  obtain ⟨t, ht⟩ := h
  refine ⟨t.reverse, ?_⟩
  have h2 := congrArg List.reverse ht
  rw [List.reverse_append, List.reverse_reverse] at h2
  exact h2

theorem dropWhile_jsTrim (s : Str) :
    List.dropWhile isJsWs (jsTrim s) = jsTrim s :=
  dropWhile_of_front isJsWs s (jsTrim s) (jsTrim_front s)

theorem jsTrim_idem (s : Str) : jsTrim (jsTrim s) = jsTrim s := by
  have h2 : List.dropWhile isJsWs (jsTrim s).reverse = (jsTrim s).reverse := by
    show List.dropWhile isJsWs
        (((List.dropWhile isJsWs s).reverse.dropWhile isJsWs).reverse).reverse = _
    rw [List.reverse_reverse]
    exact (dropWhile_idem _ _).trans (by rw [jsTrim, List.reverse_reverse])
  calc jsTrim (jsTrim s)
      = ((List.dropWhile isJsWs (jsTrim s)).reverse.dropWhile isJsWs).reverse := rfl
    _ = ((jsTrim s).reverse.dropWhile isJsWs).reverse := by rw [dropWhile_jsTrim]
    _ = ((jsTrim s).reverse).reverse := by rw [h2]
    _ = jsTrim s := List.reverse_reverse _

theorem simplifyMessage_jsTrim (s : Str) :
    simplifyMessage (jsTrim s) = simplifyMessage s := by
  unfold simplifyMessage
  rw [jsTrim_idem]

theorem simplifyNoticeMessage_eq (s : Str) :
    simplifyNoticeMessage s = simplifyMessage s := by
  unfold simplifyNoticeMessage simplifyMessage
  by_cases h : s = []
  · subst h
    rfl
  · simp [h]

/-! Helper lemmas about `shouldSkip` and `pushNotice`. -/

theorem shouldSkip_snd (st : NotifyState) (ty : NoticeType) (content : Str) (now : Int)
    (h : jsTrim content ≠ []) :
    (shouldSkip st ty content now).snd
      = ⟨jsTrim content, simplifyMessage content, some ty, now⟩ := by
  unfold shouldSkip
  simp [h, simplifyMessage_jsTrim]

theorem shouldSkip_fst_exact (nm : Str) (ty : NoticeType) (m : Str) (t0 t1 : Int)
    (hne : jsTrim m ≠ []) (hw : t1 - t0 ≤ dedupeWindowMs) :
    (shouldSkip ⟨jsTrim m, nm, some ty, t0⟩ ty m t1).fst = true := by
  unfold shouldSkip
  simp [hne, hw]

theorem pushNotice_of_skip (m : Str) (ty : NoticeType) (fb : Str) (now : Int)
    (st : NotifyState) (store : StoreState)
    (hne : jsTrim m ≠ []) (hskip : (shouldSkip st ty m now).fst = true) :
    (pushNotice (some m) ty fb now st store).snd = store := by
  have hm : m ≠ [] := by
    intro h
    exact hne (by simp [h, jsTrim])
  unfold pushNotice
  simp [hm, hne, hskip]

/-- C1: exact-duplicate suppression — after `shouldSkip` has recorded a message
of type `ty` at time `t0`, a second `shouldSkip` call with the same type and
the same trimmed content at a time `t1` with `t1 - t0 ≤ 1500` returns `true`,
and `pushNotice` therefore leaves the notice store untouched. -/
theorem exact_duplicate_suppressed (st0 : NotifyState) (ty : NoticeType)
    (m0 m fb : Str) (store : StoreState) (t0 t1 : Int)
    (heq : jsTrim m0 = jsTrim m) (hne : jsTrim m ≠ [])
    (hw : t1 - t0 ≤ dedupeWindowMs) :
    (shouldSkip (shouldSkip st0 ty m0 t0).snd ty m t1).fst = true ∧
    (pushNotice (some m) ty fb t1 (shouldSkip st0 ty m0 t0).snd store).snd = store := by
  have hne0 : jsTrim m0 ≠ [] := by rw [heq]; exact hne
  have hst1 := shouldSkip_snd st0 ty m0 t0 hne0
  rw [hst1, heq]
  have hfst := shouldSkip_fst_exact (simplifyMessage m0) ty m t0 t1 hne hw
  exact ⟨hfst, pushNotice_of_skip m ty fb t1 _ store hne hfst⟩

/-- C1 witness: two `"hello"` errors 1000 ms apart — the second is skipped and
the store stays empty. -/
theorem exact_duplicate_suppressed_witness :
    (shouldSkip (shouldSkip initNotifyState .error ("hello".data) 0).snd
        .error ("hello".data) 1000).fst = true ∧
    (pushNotice (some ("hello".data)) .error ("fb".data) 1000
        (shouldSkip initNotifyState .error ("hello".data) 0).snd emptyStore).snd
      = emptyStore :=
  exact_duplicate_suppressed initNotifyState .error ("hello".data) ("hello".data)
    ("fb".data) emptyStore 0 1000 rfl (by decide) (by decide)

/-- C2: fuzzy similar-message suppression — with a message of the same type
recorded at `t0`, a second message at `t1 ≤ t0 + 1500` whose normalized core
and the recorded core are both non-empty and one a substring of the other is
skipped, and `pushNotice` leaves the store untouched. -/
theorem similar_message_suppressed (st0 : NotifyState) (ty : NoticeType)
    (m1 m2 fb : Str) (store : StoreState) (t0 t1 : Int)
    (h1 : jsTrim m1 ≠ []) (h2 : jsTrim m2 ≠ [])
    (hc1 : simplifyMessage m1 ≠ []) (hc2 : simplifyMessage m2 ≠ [])
    (hinc : strIncludes (simplifyMessage m2) (simplifyMessage m1) = true ∨
            strIncludes (simplifyMessage m1) (simplifyMessage m2) = true)
    (hw : t1 - t0 ≤ dedupeWindowMs) :
    (shouldSkip (shouldSkip st0 ty m1 t0).snd ty m2 t1).fst = true ∧
    (pushNotice (some m2) ty fb t1 (shouldSkip st0 ty m1 t0).snd store).snd = store := by
  have hst1 := shouldSkip_snd st0 ty m1 t0 h1
  rw [hst1]
  have hfst : (shouldSkip (⟨jsTrim m1, simplifyMessage m1, some ty, t0⟩ : NotifyState)
      ty m2 t1).fst = true := by
    unfold shouldSkip
    simp [h2, hw, simplifyMessage_jsTrim, hc1, hc2]
    tauto
  exact ⟨hfst, pushNotice_of_skip m2 ty fb t1 _ store h2 hfst⟩

/-- C2 witness: `"hello world"` then `"Hello."` 1000 ms later — the cores are
`helloworld` and `hello`, one a substring of the other, so the second call is
skipped and the store stays empty. -/
theorem similar_message_suppressed_witness :
    (shouldSkip (shouldSkip initNotifyState .error ("hello world".data) 0).snd
        .error ("Hello.".data) 1000).fst = true ∧
    (pushNotice (some ("Hello.".data)) .error ("fb".data) 1000
        (shouldSkip initNotifyState .error ("hello world".data) 0).snd emptyStore).snd
      = emptyStore :=
  similar_message_suppressed initNotifyState .error ("hello world".data)
    ("Hello.".data) ("fb".data) emptyStore 0 1000 (by decide) (by decide)
    (by decide) (by decide) (Or.inr (by decide)) (by decide)

theorem runCalls_all_true (ty : NoticeType) (m : Str) (hne : jsTrim m ≠ []) :
    ∀ (ts : List Int) (t0 : Int),
      List.Chain (fun a b => b - a ≤ dedupeWindowMs) t0 ts →
      ∀ b ∈ (runCalls ty m ⟨jsTrim m, simplifyMessage m, some ty, t0⟩ ts).fst,
        b = true := by
  intro ts
  induction ts with
  | nil =>
    intro t0 _ b hb
    simp [runCalls] at hb
  | cons t rest ih =>
    intro t0 hch b hb
    rw [List.chain_cons] at hch
    have hfst := shouldSkip_fst_exact (simplifyMessage m) ty m t0 t hne hch.1
    have hsnd := shouldSkip_snd (⟨jsTrim m, simplifyMessage m, some ty, t0⟩ : NotifyState)
      ty m t hne
    rw [runCalls] at hb
    simp only [List.mem_cons] at hb
    rcases hb with hb | hb
    · rw [hb, hfst]
    · rw [hsnd] at hb
      exact ih t hch.2 b hb

/-- C9: the deduplication window slides — a `shouldSkip` call with non-empty
trimmed message always overwrites the stored last-message state with the new
message, core, type and timestamp (whatever it returns), and in a run of
same-type identical messages whose consecutive timestamps are at most 1500 ms
apart every call after the first returns `true`. -/
theorem dedupe_window_slides :
    (∀ (st : NotifyState) (ty : NoticeType) (m : Str) (now : Int),
      jsTrim m ≠ [] →
      (shouldSkip st ty m now).snd = ⟨jsTrim m, simplifyMessage m, some ty, now⟩) ∧
    (∀ (ty : NoticeType) (m : Str) (st0 : NotifyState) (t0 : Int) (ts : List Int),
      jsTrim m ≠ [] →
      List.Chain (fun a b => b - a ≤ dedupeWindowMs) t0 ts →
      ∀ b ∈ (runCalls ty m (shouldSkip st0 ty m t0).snd ts).fst, b = true) := by
  refine ⟨fun st ty m now h => shouldSkip_snd st ty m now h, ?_⟩
  intro ty m st0 t0 ts hne hch
  rw [shouldSkip_snd st0 ty m t0 hne]
  exact runCalls_all_true ty m hne ts t0 hch

/-- C9 witness: four `"hello"` errors at 0, 1400, 2800 and 4200 ms — every
call after the first is suppressed although the last is 4200 ms after the
first; and the first call stores the message state. -/
theorem dedupe_window_slides_witness :
    (shouldSkip initNotifyState .error ("hello".data) 0).snd
      = ⟨jsTrim ("hello".data), simplifyMessage ("hello".data), some .error, 0⟩ ∧
    (runCalls .error ("hello".data)
        (shouldSkip initNotifyState .error ("hello".data) 0).snd
        [1400, 2800, 4200]).fst = [true, true, true] := by
  constructor
  · exact dedupe_window_slides.1 initNotifyState .error ("hello".data) 0 (by decide)
  · have h := dedupe_window_slides.2 .error ("hello".data) initNotifyState 0
      [1400, 2800, 4200] (by decide)
      (by simp [List.chain_cons]; refine ⟨by decide, by decide, by decide⟩)
    revert h
    decide

/-- C10: the two copies of the fuzzy normalizer agree — `simplifyMessage` of
`notify.ts` and `simplifyNoticeMessage` of the notice store return the same
result on every string, so both dedup layers classify the same message pairs
as similar. -/
theorem normalizer_copies_agree :
    ∀ s : Str, simplifyMessage s = simplifyNoticeMessage s :=
  fun s => (simplifyNoticeMessage_eq s).symm

theorem tryStrip_eq_findSome (ls : List Str) (s : Str) :
    tryStrip ls s =
      match ls.findSome? (fun l => (matchLit l s).bind matchSep) with
      | some r => r
      | none => s := by
  induction ls with
  | nil => rfl
  | cons l ls ih =>
    unfold tryStrip
    cases hm : matchLit l s with
    | none => simp [List.findSome?_cons, hm, ih]
    | some rest =>
      cases hs : matchSep rest with
      | none => simp [List.findSome?_cons, hm, hs, ih]
      | some r => simp [List.findSome?_cons, hm, hs]

theorem filter_map_eq_foldr (l : Str) :
    (l.map jsToLower).filter (fun c => !isRemovable c) =
      l.foldr (fun c acc => if isRemovable (jsToLower c) then acc
        else jsToLower c :: acc) [] := by
  induction l with
  | nil => rfl
  | cons c t ih =>
    by_cases h : isRemovable (jsToLower c) <;>
      simp [List.filter_cons, h, ih]

/-- C4: `simplifyMessage` is the normalizer the spec describes — it equals the
spec-modelled `simplifySpec` (trim, strip one leading failure prefix with its
separator case-insensitively, lower-case, delete whitespace and the listed
punctuation) on every string, and it returns the empty string exactly when
the input trims to empty or, after prefix stripping, consists only of
removable characters. -/
theorem simplifyMessage_matches_spec :
    (∀ s : Str, simplifyMessage s = simplifySpec s) ∧
    (∀ s : Str, simplifyMessage s = [] ↔
      (jsTrim s = [] ∨
        ∀ c ∈ stripFailureHead (jsTrim s), isRemovable (jsToLower c) = true)) := by
  constructor
  · intro s
    unfold simplifyMessage simplifySpec
    by_cases h : jsTrim s = []
    · simp [h]
    · simp only [h, if_neg]
      rw [filter_map_eq_foldr]
      have : stripFailureHead (jsTrim s) = specRemoveHead (jsTrim s) := by
        unfold stripFailureHead specRemoveHead
        exact tryStrip_eq_findSome prefixLits (jsTrim s)
      rw [this]
  · intro s
    unfold simplifyMessage
    by_cases h : jsTrim s = []
    · simp [h]
    · rw [if_neg h]
      constructor
      · intro hnil
        refine Or.inr ?_
        intro c hc
        by_contra hrem
        have hmem : jsToLower c ∈ (stripFailureHead (jsTrim s)).map jsToLower :=
          List.mem_map_of_mem jsToLower hc
        have : jsToLower c ∈
            ((stripFailureHead (jsTrim s)).map jsToLower).filter
              (fun c => !isRemovable c) := by
          rw [List.mem_filter]
          exact ⟨hmem, by simp [Bool.eq_false_iff.mpr hrem]⟩
        rw [hnil] at this
        exact absurd this (List.not_mem_nil _)
      · intro hall
        rcases hall with hall | hall
        · exact absurd hall h
        · rw [List.filter_eq_nil_iff]
          intro a ha
          rw [List.mem_map] at ha
          obtain ⟨c, hc, rfl⟩ := ha
          simp [hall c hc]

/-! Helper lemmas about the notice store. -/

theorem foldl_remove_items (l : List NoticeItem) :
    ∀ s : StoreState,
      (l.foldl (fun acc it => acc.remove it.id) s).items
        = s.items.filter (fun x => !((l.map (fun it => it.id)).contains x.id)) := by
  induction l with
  | nil =>
    intro s
    simp
  | cons a t ih =>
    intro s
    show ((t.foldl (fun acc it => acc.remove it.id) (s.remove a.id))).items = _
    rw [ih (s.remove a.id)]
    show (s.items.filter (fun it => decide (it.id ≠ a.id))).filter _ = _
    rw [List.filter_filter]
    apply List.filter_congr
    intro x _
    simp [List.contains_cons, Bool.and_comm, eq_comm]

theorem foldl_remove_timers (l : List NoticeItem) :
    ∀ s : StoreState,
      (l.foldl (fun acc it => acc.remove it.id) s).timers
        = s.timers.filter (fun i => !((l.map (fun it => it.id)).contains i)) := by
  induction l with
  | nil =>
    intro s
    simp
  | cons a t ih =>
    intro s
    show ((t.foldl (fun acc it => acc.remove it.id) (s.remove a.id))).timers = _
    rw [ih (s.remove a.id)]
    show (s.timers.filter (fun i => decide (i ≠ a.id))).filter _ = _
    rw [List.filter_filter]
    apply List.filter_congr
    intro x _
    simp [List.contains_cons, Bool.and_comm, eq_comm]

theorem foldl_remove_sequence (l : List NoticeItem) :
    ∀ s : StoreState,
      (l.foldl (fun acc it => acc.remove it.id) s).sequence = s.sequence := by
  induction l with
  | nil =>
    intro s
    rfl
  | cons a t ih =>
    intro s
    exact ih (s.remove a.id)

theorem hasSimilar_iff (s : StoreState) (kind : NoticeType) (m : Str) :
    hasSimilarVisibleNotice s kind m = true ↔
      ∃ it ∈ s.items, it.type = kind ∧ simplifyNoticeMessage it.message ≠ [] ∧
        simplifyNoticeMessage m ≠ [] ∧
        (simplifyNoticeMessage it.message = simplifyNoticeMessage m ∨
         strIncludes (simplifyNoticeMessage it.message) (simplifyNoticeMessage m) = true ∨
         strIncludes (simplifyNoticeMessage m) (simplifyNoticeMessage it.message) = true) := by
  unfold hasSimilarVisibleNotice
  by_cases hc : simplifyNoticeMessage m = []
  · simp [hc]
  · rw [if_neg hc]
    rw [List.any_eq_true]
    constructor
    · rintro ⟨it, hit, hp⟩
      refine ⟨it, hit, ?_⟩
      by_cases ht : it.type = kind
      · rw [if_neg (by simpa using ht)] at hp
        by_cases he : simplifyNoticeMessage it.message = []
        · rw [if_pos he] at hp
          exact absurd hp (by simp)
        · rw [if_neg he] at hp
          refine ⟨ht, he, hc, ?_⟩
          simp at hp
          tauto
      · rw [if_pos (by simpa using ht)] at hp
        exact absurd hp (by simp)
    · rintro ⟨it, hit, ht, he, -, hsim⟩
      refine ⟨it, hit, ?_⟩
      rw [if_neg (by simpa using ht), if_neg he]
      simp
      tauto

theorem ite_items (c : Prop) [Decidable c] (a b : StoreState) :
    (if c then a else b).items = if c then a.items else b.items :=
  apply_ite StoreState.items c a b

theorem ite_timers (c : Prop) [Decidable c] (a b : StoreState) :
    (if c then a else b).timers = if c then a.timers else b.timers :=
  apply_ite StoreState.timers c a b

theorem take_append_one (old : List NoticeItem) (x : NoticeItem) (k : Nat)
    (hk : k ≤ old.length) : (old ++ [x]).take k = old.take k := by
  rw [List.take_append_eq_append_take]
  have : k - old.length = 0 := Nat.sub_eq_zero_of_le hk
  simp [this]

theorem show_fst (s : StoreState) (msg : Str) (kind : NoticeType) (d : Int)
    (h1 : jsTrim msg ≠ []) (h2 : hasSimilarVisibleNotice s kind (jsTrim msg) = false) :
    (s.show msg kind d).fst = some (s.sequence + 1) := by
  unfold StoreState.show
  simp [h1, h2]

theorem show_snd_items_small (s : StoreState) (msg : Str) (kind : NoticeType) (d : Int)
    (h1 : jsTrim msg ≠ []) (h2 : hasSimilarVisibleNotice s kind (jsTrim msg) = false)
    (h3 : s.items.length ≤ 4) :
    ((s.show msg kind d).snd).items
      = s.items ++ [⟨s.sequence + 1, jsTrim msg, kind⟩] := by
  unfold StoreState.show
  have hov : ¬ (5 < s.items.length + 1) := by omega
  simp [h1, h2, ite_items, hov]

theorem show_snd_timers_small (s : StoreState) (msg : Str) (kind : NoticeType) (d : Int)
    (h1 : jsTrim msg ≠ []) (h2 : hasSimilarVisibleNotice s kind (jsTrim msg) = false)
    (h3 : s.items.length ≤ 4) :
    ((s.show msg kind d).snd).timers
      = if 0 < d then s.timers ++ [s.sequence + 1] else s.timers := by
  unfold StoreState.show
  have hov : ¬ (5 < s.items.length + 1) := by omega
  simp [h1, h2, ite_items, ite_timers, hov]

theorem simplifyNoticeMessage_jsTrim (s : Str) :
    simplifyNoticeMessage (jsTrim s) = simplifyNoticeMessage s := by
  rw [simplifyNoticeMessage_eq, simplifyNoticeMessage_eq, simplifyMessage_jsTrim]

theorem show_snd_getLast (s : StoreState) (msg : Str) (kind : NoticeType) (d : Int)
    (h1 : jsTrim msg ≠ []) (h2 : hasSimilarVisibleNotice s kind (jsTrim msg) = false)
    (hwf : wfStore s) :
    ((s.show msg kind d).snd).items.getLast?
      = some ⟨s.sequence + 1, jsTrim msg, kind⟩ := by
  by_cases hlen : s.items.length ≤ 4
  · rw [show_snd_items_small s msg kind d h1 h2 hlen, List.getLast?_concat]
  · have hov : 5 < s.items.length + 1 := by omega
    unfold StoreState.show
    simp only [h1, h2, if_neg, Bool.false_eq_true, if_false, ite_items, ite_timers]
    rw [foldl_remove_items]
    simp [hov, ite_items]
    left
    intro hmem
    rw [List.take_append_eq_append_take] at hmem
    have hz : s.items.length - 4 - (List.map (fun it => it.id) s.items).length = 0 := by
      simp
    rw [hz] at hmem
    simp only [List.take_zero, List.append_nil] at hmem
    have hmem2 := List.mem_of_mem_take hmem
    rw [List.mem_map] at hmem2
    obtain ⟨it, hit, hid⟩ := hmem2
    have hle := hwf.2 it hit
    omega

theorem show_snd_length_overflow (s : StoreState) (msg : Str) (kind : NoticeType)
    (d : Int) (h1 : jsTrim msg ≠ [])
    (h2 : hasSimilarVisibleNotice s kind (jsTrim msg) = false)
    (h5 : 5 ≤ s.items.length) :
    ((s.show msg kind d).snd).items.length ≤ 5 := by
  unfold StoreState.show
  have hov : 5 < s.items.length + 1 := by omega
  simp only [h1, h2, if_neg, Bool.false_eq_true, if_false, ite_items, ite_timers]
  rw [foldl_remove_items]
  simp [hov, ite_items]
  set k := s.items.length - 4 with hk
  set ids := List.take k (List.map (fun it => it.id) s.items ++ [s.sequence + 1]) with hids
  have hsub : ids = List.take k (List.map (fun it => it.id) s.items) := by
    rw [hids, List.take_append_eq_append_take]
    have hz : k - (List.map (fun it => it.id) s.items).length = 0 := by
      simp [hk]
    rw [hz]
    simp
  rw [← List.take_append_drop k s.items, List.filter_append]
  have h0 : List.filter
      (fun x => !decide (x.id ∈ ids)) (List.take k s.items) = [] := by
    rw [List.filter_eq_nil_iff]
    intro a ha
    have hmem : a.id ∈ List.map (fun it => it.id) (List.take k s.items) :=
      List.mem_map_of_mem _ ha
    rw [List.map_take] at hmem
    rw [← hsub] at hmem
    simp [hmem]
  rw [h0]
  have hd : (List.filter (fun x => !decide (x.id ∈ ids)) (s.items.drop k)).length
      ≤ (s.items.drop k).length := List.length_filter_le _ _
  have hd2 : (s.items.drop k).length = s.items.length - k := List.length_drop _ _
  have hb : (List.filter (fun x => !decide (x.id ∈ ids))
      [(⟨s.sequence + 1, jsTrim msg, kind⟩ : NoticeItem)]).length ≤ 1 := by
    refine le_trans (List.length_filter_le _ _) ?_
    simp
  simp only [List.nil_append, List.length_append]
  omega

theorem show_snd_length_exact (s : StoreState) (msg : Str) (kind : NoticeType)
    (d : Int) (h1 : jsTrim msg ≠ [])
    (h2 : hasSimilarVisibleNotice s kind (jsTrim msg) = false)
    (hwf : wfStore s) (h5 : s.items.length = 5) :
    ((s.show msg kind d).snd).items.length = 5 := by
  unfold StoreState.show
  have hov : 5 < s.items.length + 1 := by omega
  simp only [h1, h2, if_neg, Bool.false_eq_true, if_false, ite_items, ite_timers]
  rw [foldl_remove_items]
  simp [hov, ite_items]
  obtain ⟨a, rest, hrest⟩ : ∃ a rest, s.items = a :: rest := by
    cases hsi : s.items with
    | nil => rw [hsi] at h5; simp at h5
    | cons a t => exact ⟨a, t, rfl⟩
  have hr4 : rest.length = 4 := by
    rw [hrest] at h5
    simp at h5
    omega
  have hna : a.id ∉ List.map (fun it => it.id) rest := by
    have hnd := hwf.1
    rw [hrest] at hnd
    simp only [List.map_cons] at hnd
    exact (List.nodup_cons.mp hnd).1
  have hseq : a.id ≤ s.sequence := hwf.2 a (by rw [hrest]; exact List.mem_cons_self a rest)
  rw [hrest]
  simp only [List.map_cons, List.cons_append, List.length_cons, hr4]
  have hk1 : (4 : Nat) + 1 - 4 = 0 + 1 := by omega
  rw [hk1, List.take_succ_cons, List.take_zero]
  rw [List.filter_cons]
  have hpa : (!decide (a.id ∈ [a.id])) = false := by simp
  rw [hpa]
  have hrest_eq : List.filter (fun x => !decide (x.id ∈ [a.id])) rest = rest := by
    rw [List.filter_eq_self]
    intro x hx
    have : x.id ≠ a.id := by
      intro he
      exact hna (he ▸ List.mem_map_of_mem (fun it => it.id) hx)
    simp [this]
  have hnew : (!decide (s.sequence + 1 ∈ [a.id])) = true := by
    have : s.sequence + 1 ≠ a.id := by omega
    simp [this]
  simp only [Bool.false_eq_true, if_false, hrest_eq, List.filter_cons, hnew,
    if_pos, List.filter_nil, List.length_cons, List.length_nil, hr4]

theorem show_head_timer_cleared (s : StoreState) (msg : Str) (kind : NoticeType)
    (d : Int) (h1 : jsTrim msg ≠ [])
    (h2 : hasSimilarVisibleNotice s kind (jsTrim msg) = false)
    (h5 : 5 ≤ s.items.length) :
    ∀ it, s.items.head? = some it → it.id ∉ ((s.show msg kind d).snd).timers := by
  intro it hhead
  unfold StoreState.show
  have hov : 5 < s.items.length + 1 := by omega
  simp only [h1, h2, if_neg, Bool.false_eq_true, if_false, ite_items, ite_timers]
  rw [foldl_remove_timers]
  simp [hov, ite_items, ite_timers]
  intro hmem
  obtain ⟨rest, hrest⟩ : ∃ rest, s.items = it :: rest := by
    cases hsi : s.items with
    | nil => rw [hsi] at hhead; simp at hhead
    | cons a t =>
      rw [hsi] at hhead
      simp at hhead
      exact ⟨t, by rw [hhead]⟩
  have hr4 : 4 ≤ rest.length := by
    rw [hrest] at h5
    simp at h5
    omega
  rw [hrest]
  simp only [List.map_cons, List.cons_append, List.length_cons]
  have hk1 : rest.length + 1 - 4 = (rest.length - 4) + 1 := by omega
  rw [hk1, List.take_succ_cons]
  exact List.mem_cons_self _ _

theorem show_preserves_le_five (s : StoreState) (msg : Str) (kind : NoticeType)
    (d : Int) (h : s.items.length ≤ 5) :
    ((s.show msg kind d).snd).items.length ≤ 5 := by
  by_cases h1 : jsTrim msg = []
  · unfold StoreState.show
    simp [h1]
    exact h
  by_cases h2 : hasSimilarVisibleNotice s kind (jsTrim msg) = true
  · unfold StoreState.show
    simp [h1, h2]
    exact h
  rw [Bool.not_eq_true] at h2
  by_cases h4 : s.items.length ≤ 4
  · rw [show_snd_items_small s msg kind d h1 h2 h4]
    simp
    omega
  · exact show_snd_length_overflow s msg kind d h1 h2 (by omega)

/-- C6: bounded notice list — the invariant `items.length ≤ 5` is preserved
by `remove`, `clear`, `clearAll` and `show`; and on a well-formed full store
(5 visible items) a successfully shown sixth message leaves exactly 5 items,
the oldest item having been removed and its pending timer cleared. -/
theorem bounded_notice_list (s : StoreState) (id : Nat) (msg : Str)
    (kind : NoticeType) (d : Int) :
    (s.items.length ≤ 5 → (s.remove id).items.length ≤ 5) ∧
    (s.items.length ≤ 5 → s.clear.items.length ≤ 5) ∧
    s.clearAll.items.length ≤ 5 ∧
    (s.items.length ≤ 5 → ((s.show msg kind d).snd).items.length ≤ 5) ∧
    (wfStore s → s.items.length = 5 → jsTrim msg ≠ [] →
      hasSimilarVisibleNotice s kind (jsTrim msg) = false →
      ((s.show msg kind d).snd).items.length = 5 ∧
      ∀ it, s.items.head? = some it → it.id ∉ ((s.show msg kind d).snd).timers) := by
  refine ⟨?_, ?_, ?_, ?_, ?_⟩
  · intro h
    exact le_trans (List.length_filter_le _ _) h
  · intro h
    unfold StoreState.clear
    cases hsi : s.items with
    | nil =>
      rw [hsi]
      simp
    | cons a t =>
      exact le_trans (List.length_filter_le _ _) h
  · simp [StoreState.clearAll]
  · exact fun h => show_preserves_le_five s msg kind d h
  · intro hwf h5 h1 h2
    exact ⟨show_snd_length_exact s msg kind d h1 h2 hwf h5,
      show_head_timer_cleared s msg kind d h1 h2 (by omega)⟩

/-- C6 witness: a full well-formed store with five error notices; showing
`"six"` keeps exactly 5 items and clears the timer of the oldest item, and each
operation keeps the bound. -/
theorem bounded_notice_list_witness :
    ((⟨[⟨1, "a1".data, .error⟩, ⟨2, "b2".data, .error⟩, ⟨3, "c3".data, .error⟩,
        ⟨4, "d4".data, .error⟩, ⟨5, "e5".data, .error⟩], [1, 2, 3, 4, 5], 5⟩ :
        StoreState).items.length ≤ 5) ∧
    (((⟨[⟨1, "a1".data, .error⟩, ⟨2, "b2".data, .error⟩, ⟨3, "c3".data, .error⟩,
        ⟨4, "d4".data, .error⟩, ⟨5, "e5".data, .error⟩], [1, 2, 3, 4, 5], 5⟩ :
        StoreState).show ("six".data) .error 6000).snd.items.length = 5 ∧
      ∀ it, (⟨[⟨1, "a1".data, .error⟩, ⟨2, "b2".data, .error⟩, ⟨3, "c3".data, .error⟩,
        ⟨4, "d4".data, .error⟩, ⟨5, "e5".data, .error⟩], [1, 2, 3, 4, 5], 5⟩ :
        StoreState).items.head? = some it →
        it.id ∉ ((⟨[⟨1, "a1".data, .error⟩, ⟨2, "b2".data, .error⟩,
          ⟨3, "c3".data, .error⟩, ⟨4, "d4".data, .error⟩, ⟨5, "e5".data, .error⟩],
          [1, 2, 3, 4, 5], 5⟩ : StoreState).show ("six".data) .error 6000).snd.timers) := by
  constructor
  · decide
  · exact (bounded_notice_list ⟨[⟨1, "a1".data, .error⟩, ⟨2, "b2".data, .error⟩,
      ⟨3, "c3".data, .error⟩, ⟨4, "d4".data, .error⟩, ⟨5, "e5".data, .error⟩],
      [1, 2, 3, 4, 5], 5⟩ 1 ("six".data) .error 6000).2.2.2.2
      (by constructor; decide; decide) (by decide) (by decide) (by decide)

/-- C5: store-level suppression of similar visible notices — when a visible
item of the same kind has a normalized core that equals or contains or is
contained in the non-empty core of the message, `show` returns none and
leaves items, timers and sequence unchanged; otherwise `show` hands out the
next id and appends an item carrying the trimmed message and the kind. -/
theorem store_show_similar (s : StoreState) (kind : NoticeType) (msg : Str)
    (duration : Int) (hne : jsTrim msg ≠ []) :
    ((∃ it ∈ s.items, it.type = kind ∧ simplifyNoticeMessage it.message ≠ [] ∧
        simplifyNoticeMessage msg ≠ [] ∧
        (simplifyNoticeMessage it.message = simplifyNoticeMessage msg ∨
         strIncludes (simplifyNoticeMessage it.message) (simplifyNoticeMessage msg) = true ∨
         strIncludes (simplifyNoticeMessage msg) (simplifyNoticeMessage it.message) = true)) →
      s.show msg kind duration = (none, s)) ∧
    (¬ (∃ it ∈ s.items, it.type = kind ∧ simplifyNoticeMessage it.message ≠ [] ∧
        simplifyNoticeMessage msg ≠ [] ∧
        (simplifyNoticeMessage it.message = simplifyNoticeMessage msg ∨
         strIncludes (simplifyNoticeMessage it.message) (simplifyNoticeMessage msg) = true ∨
         strIncludes (simplifyNoticeMessage msg) (simplifyNoticeMessage it.message) = true)) →
      (s.show msg kind duration).fst = some (s.sequence + 1) ∧
      (wfStore s → ((s.show msg kind duration).snd).items.getLast?
          = some ⟨s.sequence + 1, jsTrim msg, kind⟩) ∧
      (s.items.length ≤ 4 → ((s.show msg kind duration).snd).items
          = s.items ++ [⟨s.sequence + 1, jsTrim msg, kind⟩])) := by
  have hiff := hasSimilar_iff s kind (jsTrim msg)
  rw [simplifyNoticeMessage_jsTrim] at hiff
  constructor
  · intro hex
    have h2 : hasSimilarVisibleNotice s kind (jsTrim msg) = true := hiff.mpr hex
    unfold StoreState.show
    simp [hne, h2]
  · intro hnex
    have h2 : hasSimilarVisibleNotice s kind (jsTrim msg) = false := by
      cases hb : hasSimilarVisibleNotice s kind (jsTrim msg) with
      | false => rfl
      | true => exact absurd (hiff.mp hb) hnex
    exact ⟨show_fst s msg kind duration hne h2,
      fun hwf => show_snd_getLast s msg kind duration hne h2 hwf,
      fun h4 => show_snd_items_small s msg kind duration hne h2 h4⟩

/-- C5 witness: a store showing an error `"HELLO, world"` suppresses a similar
error `"  hello world!? "` (items, timers and sequence unchanged), while an
unrelated `"bye"` is appended under the next id. -/
theorem store_show_similar_witness :
    ((⟨[⟨1, "HELLO, world".data, .error⟩], [1], 1⟩ : StoreState).show
        ("  hello world!? ".data) .error 6000
      = (none, ⟨[⟨1, "HELLO, world".data, .error⟩], [1], 1⟩)) ∧
    ((⟨[⟨1, "HELLO, world".data, .error⟩], [1], 1⟩ : StoreState).show
        ("bye".data) .error 6000).snd.items
      = [⟨1, "HELLO, world".data, .error⟩, ⟨2, jsTrim ("bye".data), .error⟩] := by
  constructor
  · exact (store_show_similar ⟨[⟨1, "HELLO, world".data, .error⟩], [1], 1⟩ .error
      ("  hello world!? ".data) 6000 (by decide)).1
      ⟨⟨1, "HELLO, world".data, .error⟩, by decide, by decide, by decide, by decide,
        Or.inr (Or.inl (by decide))⟩
  · exact (store_show_similar ⟨[⟨1, "HELLO, world".data, .error⟩], [1], 1⟩ .error
      ("bye".data) 6000 (by decide)).2 (by decide) |>.2.2 (by decide)

theorem remove_timersWF (s : StoreState) (id : Nat) (h : timersWF s) :
    timersWF (s.remove id) := by
  intro i hi
  unfold StoreState.remove at hi ⊢
  rw [List.mem_filter] at hi
  obtain ⟨hmem, hpred⟩ := hi
  obtain ⟨it, hit, hid⟩ := h i hmem
  refine ⟨it, ?_, hid⟩
  rw [List.mem_filter]
  refine ⟨hit, ?_⟩
  rw [hid]
  exact hpred

theorem foldl_remove_timersWF (l : List NoticeItem) :
    ∀ s : StoreState, timersWF s →
      timersWF (l.foldl (fun acc it => acc.remove it.id) s) := by
  induction l with
  | nil =>
    intro s h
    exact h
  | cons a t ih =>
    intro s h
    exact ih (s.remove a.id) (remove_timersWF s a.id h)

theorem show_timersWF (s : StoreState) (msg : Str) (kind : NoticeType) (d : Int)
    (h : timersWF s) : timersWF ((s.show msg kind d).snd) := by
  by_cases h1 : jsTrim msg = []
  · unfold StoreState.show
    simp [h1]
    exact h
  by_cases h2 : hasSimilarVisibleNotice s kind (jsTrim msg) = true
  · unfold StoreState.show
    simp [h1, h2]
    exact h
  rw [Bool.not_eq_true] at h2
  unfold StoreState.show
  simp only [h1, h2, if_neg, Bool.false_eq_true, if_false, ite_items, ite_timers]
  simp only [ite_self]
  have hwfA : timersWF ⟨s.items ++ [⟨s.sequence + 1, jsTrim msg, kind⟩],
      s.timers ++ [s.sequence + 1], s.sequence + 1⟩ := by
    intro i hi
    rw [List.mem_append] at hi
    rcases hi with hi | hi
    · obtain ⟨it, hit, hid⟩ := h i hi
      exact ⟨it, List.mem_append_left _ hit, hid⟩
    · rw [List.mem_singleton] at hi
      exact ⟨⟨s.sequence + 1, jsTrim msg, kind⟩,
        List.mem_append_right _ (by simp), by simp [hi]⟩
  have hwfB : timersWF ⟨s.items ++ [⟨s.sequence + 1, jsTrim msg, kind⟩],
      s.timers, s.sequence + 1⟩ := by
    intro i hi
    obtain ⟨it, hit, hid⟩ := h i hi
    exact ⟨it, List.mem_append_left _ hit, hid⟩
  by_cases hd : d > 0
  · simp only [if_pos hd]
    by_cases hov : (s.items ++ [(⟨s.sequence + 1, jsTrim msg, kind⟩ : NoticeItem)]).length > 5
    · simp only [if_pos hov]
      exact foldl_remove_timersWF _ _ hwfA
    · simp only [if_neg hov]
      exact hwfA
  · simp only [if_neg hd]
    by_cases hov : (s.items ++ [(⟨s.sequence + 1, jsTrim msg, kind⟩ : NoticeItem)]).length > 5
    · simp only [if_pos hov]
      exact foldl_remove_timersWF _ _ hwfB
    · simp only [if_neg hov]
      exact hwfB


theorem new_id_notin_take (s : StoreState) (hwf : wfStore s) (k : Nat)
    (hk : k ≤ s.items.length) :
    s.sequence + 1 ∉ List.take k (List.map (fun it => it.id) s.items ++ [s.sequence + 1]) := by
  intro hmem
  rw [List.take_append_eq_append_take] at hmem
  have hz : k - (List.map (fun it => it.id) s.items).length = 0 := by
    simp
    omega
  rw [hz] at hmem
  simp only [List.take_zero, List.append_nil] at hmem
  have hmem2 := List.mem_of_mem_take hmem
  rw [List.mem_map] at hmem2
  obtain ⟨it, hit, hid⟩ := hmem2
  have hle := hwf.2 it hit
  omega

theorem show_schedules_timer (s : StoreState) (msg : Str) (kind : NoticeType)
    (d : Int) (h1 : jsTrim msg ≠ [])
    (h2 : hasSimilarVisibleNotice s kind (jsTrim msg) = false)
    (hwf : wfStore s) (hd : 0 < d) :
    s.sequence + 1 ∈ ((s.show msg kind d).snd).timers := by
  by_cases h4 : s.items.length ≤ 4
  · rw [show_snd_timers_small s msg kind d h1 h2 h4, if_pos hd]
    exact List.mem_append_right _ (by simp)
  · unfold StoreState.show
    have hov : 5 < s.items.length + 1 := by omega
    simp only [h1, h2, if_neg, Bool.false_eq_true, if_false, ite_items, ite_timers]
    rw [foldl_remove_timers]
    simp [hov, ite_timers, hd]
    right
    exact new_id_notin_take s hwf _ (by omega)

/-- C8 counterexample: `show` does arrange work to run later — showing a
notice with the default 6000 ms duration leaves a pending auto-dismiss timer
(a scheduled deferred `remove`), so the program is not free of scheduling. -/
theorem no_deferred_work_counterexample :
    ((emptyStore.show ("hi".data) .info 6000).snd).timers = [1] := by decide

/-- C8 (amended): apart from the auto-dismiss timers of the notice store the model
has no deferred work, and those timers are confined to visible notices —
`remove`, `clear`, `clearAll` and `show` all preserve the invariant that every
pending timer belongs to a currently visible item, and `show` schedules the
auto-dismiss of the freshly shown notice exactly in the `duration > 0` case. -/
theorem deferred_work_confined (s : StoreState) (id : Nat) (msg : Str)
    (kind : NoticeType) (d : Int) :
    (timersWF s → timersWF (s.remove id)) ∧
    (timersWF s → timersWF s.clear) ∧
    timersWF s.clearAll ∧
    (timersWF s → timersWF ((s.show msg kind d).snd)) ∧
    (wfStore s → jsTrim msg ≠ [] →
      hasSimilarVisibleNotice s kind (jsTrim msg) = false → 0 < d →
      s.sequence + 1 ∈ ((s.show msg kind d).snd).timers) := by
  refine ⟨remove_timersWF s id, ?_, ?_, show_timersWF s msg kind d,
    fun hwf hn hs hd => show_schedules_timer s msg kind d hn hs hwf hd⟩
  · intro h
    unfold StoreState.clear
    cases hsi : s.items with
    | nil => exact h
    | cons a t => exact remove_timersWF s a.id h
  · intro i hi
    unfold StoreState.clearAll at hi
    simp at hi

/-- C8 witness: on a well-formed one-notice store with a pending timer,
`remove` keeps the invariant and showing `"next"` schedules timer id 2. -/
theorem deferred_work_confined_witness :
    timersWF ((⟨[⟨1, "first".data, .error⟩], [1], 1⟩ : StoreState).remove 1) ∧
    (1 : Nat) + 1 ∈ (((⟨[⟨1, "first".data, .error⟩], [1], 1⟩ : StoreState).show
        ("next".data) .error 6000).snd).timers := by
  constructor
  · exact (deferred_work_confined ⟨[⟨1, "first".data, .error⟩], [1], 1⟩ 1
      ("next".data) .error 6000).1 (by unfold timersWF; decide)
  · exact (deferred_work_confined ⟨[⟨1, "first".data, .error⟩], [1], 1⟩ 1
      ("next".data) .error 6000).2.2.2.2
      (by constructor; decide; decide) (by decide) (by decide) (by decide)

/-- C3 counterexample: a duplicate `"hello"` error pushed through
`notifyError` 2000 ms after the first (strictly more than the 1500 ms
window) passes `shouldSkip`, yet it is NOT shown: the store still holds one
item because the first toast (default duration 6000 ms) is still visible and
`hasSimilarVisibleNotice` suppresses it — contradicting the claim that such a
message "is shown". -/
theorem window_bound_counterexample :
    ((2000 : Int) - 0 > dedupeWindowMs) ∧
    (shouldSkip
        (notifyError (some ("hello".data)) ("fb".data) 0 initNotifyState emptyStore).fst
        .error ("hello".data) 2000).fst = false ∧
    ((notifyError (some ("hello".data)) ("fb".data) 0 initNotifyState
        emptyStore).snd).items.length = 1 ∧
    ((notifyError (some ("hello".data)) ("fb".data) 2000
        (notifyError (some ("hello".data)) ("fb".data) 0 initNotifyState emptyStore).fst
        (notifyError (some ("hello".data)) ("fb".data) 0 initNotifyState
          emptyStore).snd).snd).items.length = 1 :=
  ⟨by decide, by decide, by decide, by decide⟩

/-- C3 (amended): suppression by the dedup window is bounded — strictly more
than 1500 ms after the previous message, `shouldSkip` returns `false` for a
same-type duplicate, and the message is then shown (appended as the last
visible item) provided the visible-notice check of the store finds no similar
notice of the same type still visible. -/
theorem window_bound_amended (st : NotifyState) (ty : NoticeType) (m fb : Str)
    (store : StoreState) (t0 t1 : Int)
    (hne : jsTrim m ≠ []) (hgt : dedupeWindowMs < t1 - t0) :
    (shouldSkip (shouldSkip st ty m t0).snd ty m t1).fst = false ∧
    (hasSimilarVisibleNotice store ty (jsTrim m) = false → wfStore store →
      ((pushNotice (some m) ty fb t1 (shouldSkip st ty m t0).snd store).snd).items.getLast?
        = some ⟨store.sequence + 1, jsTrim m, ty⟩) := by
  have hst1 := shouldSkip_snd st ty m t0 hne
  rw [hst1]
  have hfst : (shouldSkip (⟨jsTrim m, simplifyMessage m, some ty, t0⟩ : NotifyState)
      ty m t1).fst = false := by
    unfold shouldSkip
    have hw : ¬ (t1 - t0 ≤ dedupeWindowMs) := by omega
    simp [hne, hw]
  refine ⟨hfst, fun hsim hwf => ?_⟩
  have hm : m ≠ [] := by
    intro h
    exact hne (by simp [h, jsTrim])
  unfold pushNotice
  simp only [hm, hne, ne_eq, not_false_iff, and_self, if_true, hfst,
    Bool.false_eq_true, if_false]
  exact show_snd_getLast store m ty 6000 hne hsim hwf

/-- C3 witness: with an empty store, the second `"hello"` error 2000 ms after
the first is not window-suppressed and lands as the last visible item. -/
theorem window_bound_amended_witness :
    (shouldSkip (shouldSkip initNotifyState .error ("hello".data) 0).snd
        .error ("hello".data) 2000).fst = false ∧
    ((pushNotice (some ("hello".data)) .error ("fb".data) 2000
        (shouldSkip initNotifyState .error ("hello".data) 0).snd emptyStore).snd).items.getLast?
      = some ⟨1, jsTrim ("hello".data), .error⟩ := by
  have h := window_bound_amended initNotifyState .error ("hello".data) ("fb".data)
    emptyStore 0 2000 (by decide) (by decide)
  exact ⟨h.1, h.2 (by decide) (by unfold wfStore; decide)⟩

/-- C7: pagination behaves identically in `Coupons.vue` and
`UserLoginLogs.vue` — `jumpToPage` and `changePage` agree on every state and
input; `jumpToPage` no-ops on empty or `NaN` input, clamps
`Math.floor(Number(input))` into `[1, total_page]`, no-ops when the target is
the current page, and `changePage` rejects any page outside
`[1, total_page]`. -/
theorem pagination_equivalent :
    (∀ (st : PageState) (input : Str),
      Coupons.jumpToPage st input = UserLoginLogs.jumpToPage st input) ∧
    (∀ (st : PageState) (p : Int),
      Coupons.changePage st p = UserLoginLogs.changePage st p) ∧
    (∀ st : PageState, Coupons.jumpToPage st [] = none) ∧
    (∀ (st : PageState) (input : Str),
      input ≠ [] → jsNumber input = none → Coupons.jumpToPage st input = none) ∧
    (∀ (st : PageState) (input : Str) (raw : ℚ),
      input ≠ [] → jsNumber input = some raw → 1 ≤ st.total_page →
      1 ≤ min (max (Rat.floor raw) 1) st.total_page ∧
      min (max (Rat.floor raw) 1) st.total_page ≤ st.total_page ∧
      (min (max (Rat.floor raw) 1) st.total_page = st.page →
        Coupons.jumpToPage st input = none) ∧
      (min (max (Rat.floor raw) 1) st.total_page ≠ st.page →
        Coupons.jumpToPage st input
          = some (min (max (Rat.floor raw) 1) st.total_page))) ∧
    (∀ (st : PageState) (p : Int),
      p < 1 ∨ p > st.total_page → Coupons.changePage st p = none) := by
  refine ⟨?_, ?_, ?_, ?_, ?_, ?_⟩
  · intro st input
    unfold Coupons.jumpToPage UserLoginLogs.jumpToPage
      Coupons.changePage UserLoginLogs.changePage
    rfl
  · intro st p
    rfl
  · intro st
    rfl
  · intro st input hne hnan
    unfold Coupons.jumpToPage
    rw [if_neg hne, hnan]
  · intro st input raw hne hsome htp
    have hlo : 1 ≤ min (max (Rat.floor raw) 1) st.total_page :=
      le_min (le_max_right _ _) htp
    have hhi : min (max (Rat.floor raw) 1) st.total_page ≤ st.total_page :=
      min_le_right _ _
    refine ⟨hlo, hhi, fun he => ?_, fun hne2 => ?_⟩
    · unfold Coupons.jumpToPage
      rw [if_neg hne, hsome]
      simp [he]
    · unfold Coupons.jumpToPage
      rw [if_neg hne, hsome]
      simp only [hne2, if_neg, if_false]
      unfold Coupons.changePage
      rw [if_neg (by omega)]
  · intro st p hp
    unfold Coupons.changePage
    rw [if_pos hp]

/-- C7 witness: on page 2 of 10, input `"7.9"` converts to 7.9, floors and
clamps to page 7 and triggers a fetch of page 7 in both views, while
`changePage 0` is rejected. -/
theorem pagination_equivalent_witness :
    Coupons.jumpToPage ⟨2, 10⟩ ("7.9".data) = UserLoginLogs.jumpToPage ⟨2, 10⟩ ("7.9".data) ∧
    Coupons.jumpToPage ⟨2, 10⟩ ("7.9".data)
      = some (min (max (Rat.floor (mkRat 79 10)) 1) (10 : Int)) ∧
    Coupons.changePage ⟨2, 10⟩ 0 = none := by
  refine ⟨pagination_equivalent.1 ⟨2, 10⟩ ("7.9".data), ?_, ?_⟩
  · exact ((pagination_equivalent.2.2.2.2.1 ⟨2, 10⟩ ("7.9".data) (mkRat 79 10)
      (by decide) (by decide) (by decide)).2.2.2 (by decide))
  · exact pagination_equivalent.2.2.2.2.2 ⟨2, 10⟩ 0 (Or.inl (by decide))

end Admin
